import Mathlib

/-!
Shallow embedding of `final_review_gate.py`: an interactive review-gate loop
that reads lines from standard input, terminates on exit keywords (English,
case-insensitive, or Chinese, exact), echoes other non-empty lines with the
`USER_REVIEW_SUB_PROMPT: ` marker, and handles EOF, interrupts and errors.
-/

namespace ReviewGate

/-- The Latin exit keywords (source lines 52-56), matched case-insensitively
against the lowercased user input. -/
def english_exit_keywords : List String :=
  ["task_complete", "continue", "next", "end", "complete", "endtask",
   "continue_task", "end_task", "ok", "okay", "done", "proceed", "accept", "approved",
   "submit", "final", "finish", "go"]

/-- The CJK exit keywords (source lines 57-60), matched by exact string
equality with no normalization. -/
def chinese_exit_keywords : List String :=
  ["没问题", "继续", "下一步", "完成", "结束任务", "结束", "可以", "好了", "通过", "接受",
   "提交", "最终", "搞定", "行"]

/-- Model of Python's `str.lower()` (source line 48): each character is
lowercased. Agrees with CPython on ASCII, which covers every Latin keyword
and its case variants; CJK characters are unaffected by either. -/
def pyLower (s : String) : String :=
  String.mk (s.data.map Char.toLower)

/-- Model of Python's `str.strip()` with no argument (source line 39):
leading and trailing whitespace characters are removed. -/
def pyStrip (s : String) : String :=
  String.mk (((s.data.dropWhile Char.isWhitespace).reverse.dropWhile Char.isWhitespace).reverse)

/-- Exit-keyword detection (source lines 48, 63-70): the lowercased input is
tested for membership in the English list; otherwise the original input is
compared for exact equality against each Chinese keyword. -/
def is_exit_keyword_detected (user_input : String) : Bool :=
  if pyLower user_input ∈ english_exit_keywords then
    true
  else
    chinese_exit_keywords.any (fun ch_keyword => user_input == ch_keyword)

/-- The terminal states of the review loop: a recognized exit keyword,
end of the input stream, a keyboard interrupt, or any other error. -/
inductive TerminalState where
  | user_exit
  | closed
  | interrupted
  | error
deriving DecidableEq, Repr

/-- The outcome of one loop iteration: either the loop continues (`next`)
or it terminates in a terminal state (`halt`), each carrying the list of
output lines printed during the iteration. -/
inductive StepOutcome where
  | next (out : List String)
  | halt (st : TerminalState) (out : List String)
deriving DecidableEq, Repr

/-- The EOF notice (source line 34). -/
def eofNotice (ts : String) : String :=
  "[" ++ ts ++ "] --- REVIEW GATE: STDIN closed (EOF detected). Exiting review script for this step. ---"

/-- The empty-input notice (source line 44), citing the prompt counter. -/
def waitingNotice (ts : String) (prompt_count : Nat) : String :=
  "[" ++ ts ++ "] Review Gate (Prompt #" ++ toString prompt_count ++ "): Waiting for input..."

/-- The user-exit notice (source line 73), citing the trimmed user input
with its original casing and the prompt counter. -/
def exitNotice (ts : String) (user_input : String) (prompt_count : Nat) : String :=
  "[" ++ ts ++ "] --- REVIEW GATE: User ended review for THIS STEP with keyword: '" ++
    user_input ++ "' (after " ++ toString prompt_count ++ " prompts) ---"

/-- The sub-prompt echo line (source line 78): the fixed marker followed by
the trimmed user input, with no timestamp. -/
def subPromptLine (user_input : String) : String :=
  "USER_REVIEW_SUB_PROMPT: " ++ user_input

/-- The keyboard-interrupt notice (source line 83). -/
def kbNotice (ts : String) : String :=
  "[" ++ ts ++ "] --- REVIEW GATE: User interrupted (Ctrl+C). Exiting review script for this step. ---"

/-- The generic error notice (source line 88), citing the error description. -/
def errNotice (ts : String) (e : String) : String :=
  "[" ++ ts ++ "] --- REVIEW GATE: An error occurred in the review script for this step: " ++
    e ++ " ---"

/-- The three startup banner lines (source lines 18-20), all sharing one
timestamp taken before the loop starts. -/
def bannerLines (ts : String) : List String :=
  ["[" ++ ts ++ "] Review Gate: The current step's initial implementation is complete.",
   "[" ++ ts ++ "] Please provide your sub-prompt for iterative modifications for THIS STEP,",
   "[" ++ ts ++ "] or enter an exit keyword (e.g., '完成', 'next', 'task_complete', 'continue', 'ok') to finalize THIS STEP's review:"]

/-- Processing of one raw line returned by the blocking read (source lines
32-78): the empty read means EOF; otherwise the line is stripped, an empty
result re-prompts, an exit keyword halts the loop, and anything else is
echoed as a sub-prompt. `ts` is the timestamp taken for this iteration and
`prompt_count` the counter value after its increment. -/
def processLine (ts : String) (prompt_count : Nat) (line : String) : StepOutcome :=
  if line = "" then
    .halt .closed [eofNotice ts]
  else
    let user_input := pyStrip line
    if user_input = "" then
      .next [waitingNotice ts prompt_count]
    else if is_exit_keyword_detected user_input then
      .halt .user_exit [exitNotice ts user_input prompt_count]
    else
      .next [subPromptLine user_input]

/-- One event delivered to the blocking read: a line of input (possibly the
empty string, which Python's readline returns at EOF), a KeyboardInterrupt,
or any other exception carrying its description. -/
inductive ReadEvent where
  | line (s : String)
  | interrupt
  | exn (msg : String)
deriving DecidableEq, Repr

/-- Processing of one read event (source lines 27-90): a line goes through
`processLine`; a KeyboardInterrupt and any other exception are caught and
halt the loop with their notices. -/
def processEvent (ts : String) (prompt_count : Nat) : ReadEvent → StepOutcome
  | .line s => processLine ts prompt_count s
  | .interrupt => .halt .interrupted [kbNotice ts]
  | .exn msg => .halt .error [errNotice ts msg]

/-- The review loop (source lines 23-90), with explicit fuel standing for
the number of iterations the `while active_session` loop may still run.
`tss i` is the timestamp observed in the iteration whose incremented
counter is `i`. Once `events` is exhausted the read returns the empty
string, as a closed stream does. Returns `none` when the fuel runs out
with the session still active, otherwise the terminal state, the final
prompt counter and the output lines in order. -/
def run (tss : Nat → String) : Nat → List ReadEvent → Nat → Option (TerminalState × Nat × List String)
  | 0, _, _ => none
  | fuel + 1, events, prompt_count =>
    let pc := prompt_count + 1
    let ev := match events with
      | [] => ReadEvent.line ""
      | e :: _ => e
    match processEvent (tss pc) pc ev with
    | .halt st out => some (st, pc, out)
    | .next out =>
      match run tss fuel events.tail pc with
      | none => none
      | some (st, pcF, outs) => some (st, pcF, out ++ outs)

/-- Whether one read event terminates the loop, independent of timestamp
and counter: the empty read (EOF), a trimmed input that is an exit keyword,
an interrupt, or an exception. -/
def haltsOn : ReadEvent → Bool
  | .line s => s = "" || (pyStrip s ≠ "" && is_exit_keyword_detected (pyStrip s))
  | .interrupt => true
  | .exn _ => true

/-- The number of blocking reads the loop performs on an event list: one
per event up to and including the first halting event, plus the final EOF
read when no event halts. -/
def readsUsed : List ReadEvent → Nat
  | [] => 1
  | ev :: rest => if haltsOn ev then 1 else 1 + readsUsed rest

/-- A day-and-time record, the data `datetime.datetime.now()` supplies to
the `"%Y-%m-%d %H:%M:%S"` format string (source lines 17, 33, 40, 82, 87). -/
structure DateTime where
  year : Nat
  month : Nat
  day : Nat
  hour : Nat
  minute : Nat
  second : Nat
deriving DecidableEq, Repr

/-- The decimal digit character for `d` modulo 10. -/
def digitChar (d : Nat) : Char :=
  Char.ofNat (48 + d % 10)

/-- A zero-padded two-digit decimal field, as strftime renders `%m`, `%d`,
`%H`, `%M` and `%S` for values below 100. -/
def pad2 (n : Nat) : String :=
  String.mk [digitChar (n / 10), digitChar n]

/-- A zero-padded four-digit decimal field, as strftime renders `%Y` for
years below 10000. -/
def pad4 (n : Nat) : String :=
  String.mk [digitChar (n / 1000), digitChar (n / 100), digitChar (n / 10), digitChar n]

/-- The timestamp string produced by `strftime("%Y-%m-%d %H:%M:%S")`. -/
def formatTimestamp (t : DateTime) : String :=
  pad4 t.year ++ "-" ++ pad2 t.month ++ "-" ++ pad2 t.day ++ " " ++
    pad2 t.hour ++ ":" ++ pad2 t.minute ++ ":" ++ pad2 t.second

/-- A field of a timestamp: a string of `n` decimal digit characters. -/
def digitField (n : Nat) (s : String) : Prop :=
  s.length = n ∧ ∀ c ∈ s.data, c.isDigit = true

/-- The `YYYY-MM-DD HH:MM:SS` shape: six all-digit fields of widths
4, 2, 2, 2, 2, 2 joined by dashes, a space and colons. -/
def timestampShape (s : String) : Prop :=
  ∃ y mo d h mi se : String,
    s = y ++ "-" ++ mo ++ "-" ++ d ++ " " ++ h ++ ":" ++ mi ++ ":" ++ se ∧
    digitField 4 y ∧ digitField 2 mo ∧ digitField 2 d ∧
    digitField 2 h ∧ digitField 2 mi ∧ digitField 2 se

/-- A line carrying the timestamp `ts` as its bracketed prefix, so that
`[<ts>]` is what a reader of the stream sees first on the line. -/
def timestampedLine (ts l : String) : Prop :=
  ∃ r : String, l = "[" ++ (ts ++ ("] " ++ r))

/-- The whole program's output (source lines 17-90): the three banner lines
with the startup timestamp `clock 0`, then the loop run with per-iteration
timestamps `clock i`, starting from `prompt_count = 0`. -/
def main_run (clock : Nat → DateTime) (fuel : Nat) (events : List ReadEvent) :
    Option (TerminalState × Nat × List String) :=
  match run (fun i => formatTimestamp (clock i)) fuel events 0 with
  | none => none
  | some (st, pc, outs) => some (st, pc, bannerLines (formatTimestamp (clock 0)) ++ outs)

/-- The classification of a step outcome: the terminal state when the loop
halts, `none` when it continues. -/
def outcomeKind : StepOutcome → Option TerminalState
  | .next _ => none
  | .halt st _ => some st

/-! ### Helper lemmas -/

/-- Keyword detection characterized: the input is an exit keyword exactly
when its lowercased form is an English keyword or it is itself a Chinese
keyword. -/
theorem is_exit_iff (u : String) :
    is_exit_keyword_detected u = true ↔
      pyLower u ∈ english_exit_keywords ∨ u ∈ chinese_exit_keywords := by
  unfold is_exit_keyword_detected
  by_cases h : pyLower u ∈ english_exit_keywords
  · simp [h]
  · simp [h, List.any_eq_true]

/-- The empty string is not an exit keyword. -/
theorem is_exit_empty : is_exit_keyword_detected "" = false := by decide

/-- A line with a nonempty stripped form is itself nonempty. -/
theorem ne_empty_of_strip_ne {line : String} (h : pyStrip line ≠ "") : line ≠ "" := by
  intro h0
  subst h0
  exact h rfl

/-- The stripped form of an exit-keyword line is nonempty. -/
theorem strip_ne_of_exit {line : String}
    (h : is_exit_keyword_detected (pyStrip line) = true) : pyStrip line ≠ "" := by
  intro h0
  rw [h0] at h
  exact absurd h (by decide)

/-- Keyword detection rejects inputs outside both keyword tables. -/
theorem is_exit_false_of {u : String} (h1 : pyLower u ∉ english_exit_keywords)
    (h2 : u ∉ chinese_exit_keywords) : is_exit_keyword_detected u = false := by
  cases hb : is_exit_keyword_detected u
  · rfl
  · rcases (is_exit_iff u).mp hb with h | h
    · exact absurd h h1
    · exact absurd h h2

/-- The branch structure of `processLine` on a nonempty raw line. -/
theorem processLine_eq (ts : String) (pc : Nat) (line : String) (h : line ≠ "") :
    processLine ts pc line =
      (if pyStrip line = "" then StepOutcome.next [waitingNotice ts pc]
       else if is_exit_keyword_detected (pyStrip line) then
         StepOutcome.halt .user_exit [exitNotice ts (pyStrip line) pc]
       else StepOutcome.next [subPromptLine (pyStrip line)]) := by
  unfold processLine
  rw [if_neg h]

/-! ### Claims -/

/-- C1: every Latin exit keyword, submitted in any mixed case (that is, any
line whose stripped, lowercased form belongs to the English keyword list),
terminates the review loop in terminal state `user_exit`, both at the level
of a single iteration and of the whole loop. -/
theorem latin_keyword_any_case_exits (ts : String) (pc : Nat) (line : String)
    (h : pyLower (pyStrip line) ∈ english_exit_keywords) :
    processLine ts pc line = .halt .user_exit [exitNotice ts (pyStrip line) pc] ∧
    ∀ (tss : Nat → String) (fuel : Nat) (rest : List ReadEvent) (pc0 : Nat),
      run tss (fuel + 1) (ReadEvent.line line :: rest) pc0 =
        some (.user_exit, pc0 + 1, [exitNotice (tss (pc0 + 1)) (pyStrip line) (pc0 + 1)]) := by
  have hdet : is_exit_keyword_detected (pyStrip line) = true :=
    (is_exit_iff _).mpr (Or.inl h)
  have hs : pyStrip line ≠ "" := strip_ne_of_exit hdet
  have key : ∀ (ts' : String) (pc' : Nat),
      processLine ts' pc' line = .halt .user_exit [exitNotice ts' (pyStrip line) pc'] := by
    intro ts' pc'
    rw [processLine_eq ts' pc' line (ne_empty_of_strip_ne hs), if_neg hs, if_pos hdet]
  refine ⟨key ts pc, ?_⟩
  intro tss fuel rest pc0
  simp only [run, processEvent]
  rw [key]

/-- C1 witness: the mixed-case line " DoNe " (with surrounding whitespace)
exits with `user_exit`, citing the stripped input. -/
theorem latin_keyword_any_case_exits_witness :
    processLine "2025-01-02 03:04:05" 1 " DoNe \n" =
      .halt .user_exit [exitNotice "2025-01-02 03:04:05" "DoNe" 1] :=
  (latin_keyword_any_case_exits "2025-01-02 03:04:05" 1 " DoNe \n" (by decide)).1

/-- C2: every Chinese exit keyword, submitted exactly (after stripping),
terminates the loop in state `user_exit`; and every nonempty stripped input
outside both keyword tables does not terminate the loop: it yields a
`next` outcome. -/
theorem cjk_exact_match_decides_exit (ts : String) (pc : Nat) (line : String) :
    (pyStrip line ∈ chinese_exit_keywords →
      processLine ts pc line = .halt .user_exit [exitNotice ts (pyStrip line) pc]) ∧
    (pyStrip line ≠ "" → pyStrip line ∉ chinese_exit_keywords →
      pyLower (pyStrip line) ∉ english_exit_keywords →
      processLine ts pc line = .next [subPromptLine (pyStrip line)]) := by
  constructor
  · intro hmem
    have hdet : is_exit_keyword_detected (pyStrip line) = true :=
      (is_exit_iff _).mpr (Or.inr hmem)
    have hs : pyStrip line ≠ "" := strip_ne_of_exit hdet
    rw [processLine_eq ts pc line (ne_empty_of_strip_ne hs), if_neg hs, if_pos hdet]
  · intro hs hcjk heng
    have hdet : is_exit_keyword_detected (pyStrip line) = false := is_exit_false_of heng hcjk
    rw [processLine_eq ts pc line (ne_empty_of_strip_ne hs), if_neg hs, if_neg ?_]
    intro hcon
    rw [hdet] at hcon
    exact Bool.false_ne_true hcon

/-- C2 witness: the exact keyword 继续 exits, and the non-keyword line
"continue please" (whose lowered form is not an English keyword and which
is not a Chinese keyword) does not terminate the loop. -/
theorem cjk_exact_match_decides_exit_witness :
    processLine "T" 2 "继续\n" = .halt .user_exit [exitNotice "T" "继续" 2] ∧
    processLine "T" 2 "continue please\n" = .next [subPromptLine "continue please"] :=
  ⟨(cjk_exact_match_decides_exit "T" 2 "继续\n").1 (by decide),
   (cjk_exact_match_decides_exit "T" 2 "continue please\n").2 (by decide) (by decide) (by decide)⟩

/-- C3: a nonempty stripped input that is not an exit keyword produces, in
that iteration, exactly one output line, equal to the literal marker
`USER_REVIEW_SUB_PROMPT: ` followed by the stripped input, and the loop
continues: the run on such a line prepends that single line to the rest of
the session's output. -/
theorem non_exit_input_echoes_subprompt (line : String)
    (h1 : pyStrip line ≠ "") (h2 : is_exit_keyword_detected (pyStrip line) = false) :
    (∀ (ts : String) (pc : Nat),
      processLine ts pc line = .next [subPromptLine (pyStrip line)]) ∧
    subPromptLine (pyStrip line) = "USER_REVIEW_SUB_PROMPT: " ++ pyStrip line ∧
    ∀ (tss : Nat → String) (fuel : Nat) (rest : List ReadEvent) (pc0 : Nat),
      run tss (fuel + 1) (ReadEvent.line line :: rest) pc0 =
        match run tss fuel rest (pc0 + 1) with
        | none => none
        | some (st, pcF, outs) => some (st, pcF, subPromptLine (pyStrip line) :: outs) := by
  have key : ∀ (ts : String) (pc : Nat),
      processLine ts pc line = .next [subPromptLine (pyStrip line)] := by
    intro ts pc
    rw [processLine_eq ts pc line (ne_empty_of_strip_ne h1), if_neg h1, if_neg ?_]
    intro hcon
    rw [h2] at hcon
    exact Bool.false_ne_true hcon
  refine ⟨key, rfl, ?_⟩
  intro tss fuel rest pc0
  simp only [run, processEvent]
  rw [key]
  rcases hrec : run tss fuel rest (pc0 + 1) with _ | ⟨st, pcF, outs⟩ <;> simp [hrec]

/-- C3 witness: the line "hello" is echoed as the single marker line and
the session goes on to the next read. -/
theorem non_exit_input_echoes_subprompt_witness :
    processLine "T" 1 "hello\n" = .next [subPromptLine "hello"] ∧
    subPromptLine "hello" = "USER_REVIEW_SUB_PROMPT: " ++ "hello" :=
  ⟨((non_exit_input_echoes_subprompt "hello\n" (by decide) (by decide)).1 "T" 1),
   ((non_exit_input_echoes_subprompt "hello\n" (by decide) (by decide)).2.1)⟩

/-- The waiting notice is never a marker line: it differs from every
sub-prompt echo, since one starts with a bracket and the other with the
fixed marker. -/
theorem waiting_ne_subprompt (ts : String) (pc : Nat) (u : String) :
    waitingNotice ts pc ≠ subPromptLine u := by
  intro h
  have hd := congrArg (fun s => s.data.head?) h
  simp only [waitingNotice, subPromptLine, String.data_append] at hd
  simp at hd

/-- C4: a raw input line that is nonempty but whose stripped form is empty
never terminates the loop and never yields the sub-prompt marker line: the
iteration emits exactly one line, the timestamped waiting notice citing the
just-incremented prompt counter, and the run continues with the remaining
events at the incremented counter. -/
theorem empty_line_reprompts (line : String) (h1 : line ≠ "") (h2 : pyStrip line = "") :
    (∀ (ts : String) (pc : Nat),
      processLine ts pc line = .next [waitingNotice ts pc]) ∧
    (∀ (ts : String) (pc : Nat) (u : String), waitingNotice ts pc ≠ subPromptLine u) ∧
    (∀ (ts : String) (pc : Nat), waitingNotice ts pc =
      "[" ++ ts ++ "] Review Gate (Prompt #" ++ toString pc ++ "): Waiting for input...") ∧
    ∀ (tss : Nat → String) (fuel : Nat) (rest : List ReadEvent) (pc0 : Nat),
      run tss (fuel + 1) (ReadEvent.line line :: rest) pc0 =
        match run tss fuel rest (pc0 + 1) with
        | none => none
        | some (st, pcF, outs) =>
            some (st, pcF, waitingNotice (tss (pc0 + 1)) (pc0 + 1) :: outs) := by
  have key : ∀ (ts : String) (pc : Nat),
      processLine ts pc line = .next [waitingNotice ts pc] := by
    intro ts pc
    rw [processLine_eq ts pc line h1, if_pos h2]
  refine ⟨key, waiting_ne_subprompt, fun ts pc => rfl, ?_⟩
  intro tss fuel rest pc0
  simp only [run, processEvent]
  rw [key]
  rcases hrec : run tss fuel rest (pc0 + 1) with _ | ⟨st, pcF, outs⟩ <;> simp [hrec]

/-- C4 witness: the whitespace-only line "  \n" re-prompts with the waiting
notice and does not terminate the iteration. -/
theorem empty_line_reprompts_witness :
    processLine "T" 7 "  \n" = .next [waitingNotice "T" 7] ∧
    waitingNotice "T" 7 ≠ subPromptLine "" :=
  ⟨(empty_line_reprompts "  \n" (by decide) (by decide)).1 "T" 7,
   (empty_line_reprompts "  \n" (by decide) (by decide)).2.1 "T" 7 ""⟩

/-- C5: when the input stream is exhausted the loop emits the timestamped
EOF notice and terminates in state `closed`, whatever the prior prompt
count; and for every finite event sequence the loop terminates: fuel equal
to the number of events plus one always reaches a terminal state. -/
theorem eof_closes_and_loop_terminates (tss : Nat → String) :
    (∀ (fuel pc : Nat),
      run tss (fuel + 1) [] pc = some (.closed, pc + 1, [eofNotice (tss (pc + 1))])) ∧
    ∀ (events : List ReadEvent) (pc : Nat),
      (run tss (events.length + 1) events pc).isSome = true := by
  constructor
  · intro fuel pc
    simp [run, processEvent, processLine]
  · intro events
    induction events with
    | nil =>
      intro pc
      simp [run, processEvent, processLine]
    | cons e rest ih =>
      intro pc
      have hstep : run tss ((e :: rest).length + 1) (e :: rest) pc =
          match processEvent (tss (pc + 1)) (pc + 1) e with
          | .halt st out => some (st, pc + 1, out)
          | .next out =>
            match run tss (rest.length + 1) rest (pc + 1) with
            | none => none
            | some (st, pcF, outs) => some (st, pcF, out ++ outs) := by
        simp only [List.length_cons]
        rfl
      rw [hstep]
      rcases hpe : processEvent (tss (pc + 1)) (pc + 1) e with out | ⟨st, out⟩
      · have hih := ih (pc + 1)
        rcases hrec : run tss (rest.length + 1) rest (pc + 1) with _ | ⟨st', pcF, outs⟩
        · rw [hrec] at hih
          simp at hih
        · simp [hrec]
      · simp

/-- C6: an interrupt arriving at the blocking read halts the loop at once
in state `interrupted` with the timestamped interrupt notice, and any other
exception halts it in state `error` with a timestamped notice citing the
error description; in both cases the run yields a value immediately (no
propagating fault) and the remaining events are never consumed (no retry). -/
theorem interrupt_and_error_halt (tss : Nat → String) (fuel : Nat)
    (rest : List ReadEvent) (pc : Nat) (msg : String) :
    run tss (fuel + 1) (ReadEvent.interrupt :: rest) pc =
      some (.interrupted, pc + 1, [kbNotice (tss (pc + 1))]) ∧
    run tss (fuel + 1) (ReadEvent.exn msg :: rest) pc =
      some (.error, pc + 1, [errNotice (tss (pc + 1)) msg]) ∧
    errNotice (tss (pc + 1)) msg =
      "[" ++ tss (pc + 1) ++
        "] --- REVIEW GATE: An error occurred in the review script for this step: " ++
        msg ++ " ---" ∧
    kbNotice (tss (pc + 1)) =
      "[" ++ tss (pc + 1) ++
        "] --- REVIEW GATE: User interrupted (Ctrl+C). Exiting review script for this step. ---" := by
  refine ⟨?_, ?_, rfl, rfl⟩ <;> simp [run, processEvent]

/-- Unfolding of the loop on an exhausted event list: the read yields the
empty string and the EOF branch fires. -/
theorem run_nil (tss : Nat → String) (fuel pc : Nat) :
    run tss (fuel + 1) [] pc = some (.closed, pc + 1, [eofNotice (tss (pc + 1))]) := by
  simp [run, processEvent, processLine]

/-- Unfolding of the loop on one more event. -/
theorem run_cons (tss : Nat → String) (fuel : Nat) (ev : ReadEvent)
    (rest : List ReadEvent) (pc : Nat) :
    run tss (fuel + 1) (ev :: rest) pc =
      match processEvent (tss (pc + 1)) (pc + 1) ev with
      | .halt st out => some (st, pc + 1, out)
      | .next out =>
        match run tss fuel rest (pc + 1) with
        | none => none
        | some (st, pcF, outs) => some (st, pcF, out ++ outs) := rfl

/-- Decimal digit characters are digits. -/
theorem digitChar_isDigit (k : Nat) : (digitChar k).isDigit = true := by
  have h10 : ∀ m, m < 10 → (Char.ofNat (48 + m)).isDigit = true := by decide
  unfold digitChar
  exact h10 (k % 10) (Nat.mod_lt k (by norm_num))

/-- Two-digit fields really are two digit characters. -/
theorem pad2_digitField (n : Nat) : digitField 2 (pad2 n) := by
  refine ⟨rfl, ?_⟩
  intro c hc
  have hd : (pad2 n).data = [digitChar (n / 10), digitChar n] := rfl
  rw [hd] at hc
  simp at hc
  rcases hc with rfl | rfl <;> exact digitChar_isDigit _

/-- Four-digit fields really are four digit characters. -/
theorem pad4_digitField (n : Nat) : digitField 4 (pad4 n) := by
  refine ⟨rfl, ?_⟩
  intro c hc
  have hd : (pad4 n).data =
      [digitChar (n / 1000), digitChar (n / 100), digitChar (n / 10), digitChar n] := rfl
  rw [hd] at hc
  simp at hc
  rcases hc with rfl | rfl | rfl | rfl <;> exact digitChar_isDigit _

/-- The formatted timestamp always has the `YYYY-MM-DD HH:MM:SS` shape. -/
theorem formatTimestamp_shape (t : DateTime) : timestampShape (formatTimestamp t) :=
  ⟨pad4 t.year, pad2 t.month, pad2 t.day, pad2 t.hour, pad2 t.minute, pad2 t.second,
    rfl, pad4_digitField _, pad2_digitField _, pad2_digitField _, pad2_digitField _,
    pad2_digitField _, pad2_digitField _⟩

/-- The EOF notice is timestamped. -/
theorem eof_timestamped (ts : String) : timestampedLine ts (eofNotice ts) := by
  refine ⟨"--- REVIEW GATE: STDIN closed (EOF detected). Exiting review script for this step. ---", ?_⟩
  unfold eofNotice
  rw [(by decide :
    ("] --- REVIEW GATE: STDIN closed (EOF detected). Exiting review script for this step. ---" : String) =
      "] " ++ "--- REVIEW GATE: STDIN closed (EOF detected). Exiting review script for this step. ---")]
  simp [String.append_assoc]

/-- The waiting notice is timestamped. -/
theorem waiting_timestamped (ts : String) (n : Nat) :
    timestampedLine ts (waitingNotice ts n) := by
  refine ⟨"Review Gate (Prompt #" ++ toString n ++ "): Waiting for input...", ?_⟩
  unfold waitingNotice
  simp only [String.append_assoc]
  rw [(by decide :
    ("] Review Gate (Prompt #" : String) = "] " ++ "Review Gate (Prompt #"),
    String.append_assoc]

/-- The user-exit notice is timestamped. -/
theorem exit_timestamped (ts u : String) (n : Nat) :
    timestampedLine ts (exitNotice ts u n) := by
  refine ⟨"--- REVIEW GATE: User ended review for THIS STEP with keyword: '" ++
    u ++ "' (after " ++ toString n ++ " prompts) ---", ?_⟩
  unfold exitNotice
  simp only [String.append_assoc]
  rw [(by decide :
    ("] --- REVIEW GATE: User ended review for THIS STEP with keyword: '" : String) =
      "] " ++ "--- REVIEW GATE: User ended review for THIS STEP with keyword: '"),
    String.append_assoc]

/-- The interrupt notice is timestamped. -/
theorem kb_timestamped (ts : String) : timestampedLine ts (kbNotice ts) := by
  refine ⟨"--- REVIEW GATE: User interrupted (Ctrl+C). Exiting review script for this step. ---", ?_⟩
  unfold kbNotice
  rw [(by decide :
    ("] --- REVIEW GATE: User interrupted (Ctrl+C). Exiting review script for this step. ---" : String) =
      "] " ++ "--- REVIEW GATE: User interrupted (Ctrl+C). Exiting review script for this step. ---")]
  simp [String.append_assoc]

/-- The error notice is timestamped. -/
theorem err_timestamped (ts msg : String) : timestampedLine ts (errNotice ts msg) := by
  refine ⟨"--- REVIEW GATE: An error occurred in the review script for this step: " ++
    msg ++ " ---", ?_⟩
  unfold errNotice
  simp only [String.append_assoc]
  rw [(by decide :
    ("] --- REVIEW GATE: An error occurred in the review script for this step: " : String) =
      "] " ++ "--- REVIEW GATE: An error occurred in the review script for this step: "),
    String.append_assoc]

/-- Every banner line is timestamped. -/
theorem banner_timestamped (ts : String) :
    ∀ l ∈ bannerLines ts, timestampedLine ts l := by
  intro l hl
  have hb : bannerLines ts =
      ["[" ++ ts ++ "] Review Gate: The current step's initial implementation is complete.",
       "[" ++ ts ++ "] Please provide your sub-prompt for iterative modifications for THIS STEP,",
       "[" ++ ts ++ "] or enter an exit keyword (e.g., '完成', 'next', 'task_complete', 'continue', 'ok') to finalize THIS STEP's review:"] := rfl
  rw [hb] at hl
  simp at hl
  rcases hl with rfl | rfl | rfl
  · refine ⟨"Review Gate: The current step's initial implementation is complete.", ?_⟩
    rw [(by decide :
      ("] Review Gate: The current step's initial implementation is complete." : String) =
        "] " ++ "Review Gate: The current step's initial implementation is complete.")]
    simp [String.append_assoc]
  · refine ⟨"Please provide your sub-prompt for iterative modifications for THIS STEP,", ?_⟩
    rw [(by decide :
      ("] Please provide your sub-prompt for iterative modifications for THIS STEP," : String) =
        "] " ++ "Please provide your sub-prompt for iterative modifications for THIS STEP,")]
    simp [String.append_assoc]
  · refine ⟨"or enter an exit keyword (e.g., '完成', 'next', 'task_complete', 'continue', 'ok') to finalize THIS STEP's review:", ?_⟩
    rw [(by decide :
      ("] or enter an exit keyword (e.g., '完成', 'next', 'task_complete', 'continue', 'ok') to finalize THIS STEP's review:" : String) =
        "] " ++ "or enter an exit keyword (e.g., '完成', 'next', 'task_complete', 'continue', 'ok') to finalize THIS STEP's review:")]
    simp [String.append_assoc]

/-- Every output line of the loop is either a sub-prompt echo or carries
the bracketed timestamp of some iteration. -/
theorem run_lines (tss : Nat → String) (fuel : Nat) :
    ∀ (events : List ReadEvent) (pc : Nat) (st : TerminalState)
      (pcF : Nat) (outs : List String),
      run tss fuel events pc = some (st, pcF, outs) →
      ∀ l ∈ outs, (∃ u, l = subPromptLine u) ∨ ∃ i, timestampedLine (tss i) l := by
  induction fuel with
  | zero =>
    intro events pc st pcF outs h
    simp [run] at h
  | succ fuel ih =>
    intro events pc st pcF outs h
    rcases events with _ | ⟨ev, rest⟩
    · rw [run_nil] at h
      simp only [Option.some.injEq, Prod.mk.injEq] at h
      obtain ⟨rfl, rfl, rfl⟩ := h
      intro l hl
      simp at hl
      subst hl
      exact Or.inr ⟨pc + 1, eof_timestamped _⟩
    · rcases ev with s | _ | msg
      · by_cases hs : s = ""
        · subst hs
          have hpe : processEvent (tss (pc + 1)) (pc + 1) (.line "") =
              .halt .closed [eofNotice (tss (pc + 1))] := rfl
          rw [run_cons, hpe] at h
          simp only [Option.some.injEq, Prod.mk.injEq] at h
          obtain ⟨rfl, rfl, rfl⟩ := h
          intro l hl
          simp at hl
          subst hl
          exact Or.inr ⟨pc + 1, eof_timestamped _⟩
        · by_cases hstrip : pyStrip s = ""
          · have hpe : processEvent (tss (pc + 1)) (pc + 1) (.line s) =
                .next [waitingNotice (tss (pc + 1)) (pc + 1)] := by
              show processLine _ _ s = _
              rw [processLine_eq _ _ s hs, if_pos hstrip]
            rw [run_cons, hpe] at h
            rcases hrec : run tss fuel rest (pc + 1) with _ | ⟨st', pcF', outs'⟩
            · rw [hrec] at h
              exact absurd h (by simp)
            · rw [hrec] at h
              simp only [Option.some.injEq, Prod.mk.injEq] at h
              obtain ⟨rfl, rfl, rfl⟩ := h
              intro l hl
              rcases List.mem_append.mp hl with hw | ho
              · simp at hw
                subst hw
                exact Or.inr ⟨pc + 1, waiting_timestamped _ _⟩
              · exact ih rest (pc + 1) st' pcF' outs' hrec l ho
          · by_cases hdet : is_exit_keyword_detected (pyStrip s) = true
            · have hpe : processEvent (tss (pc + 1)) (pc + 1) (.line s) =
                  .halt .user_exit [exitNotice (tss (pc + 1)) (pyStrip s) (pc + 1)] := by
                show processLine _ _ s = _
                rw [processLine_eq _ _ s hs, if_neg hstrip, if_pos hdet]
              rw [run_cons, hpe] at h
              simp only [Option.some.injEq, Prod.mk.injEq] at h
              obtain ⟨rfl, rfl, rfl⟩ := h
              intro l hl
              simp at hl
              subst hl
              exact Or.inr ⟨pc + 1, exit_timestamped _ _ _⟩
            · have hpe : processEvent (tss (pc + 1)) (pc + 1) (.line s) =
                  .next [subPromptLine (pyStrip s)] := by
                show processLine _ _ s = _
                rw [processLine_eq _ _ s hs, if_neg hstrip, if_neg hdet]
              rw [run_cons, hpe] at h
              rcases hrec : run tss fuel rest (pc + 1) with _ | ⟨st', pcF', outs'⟩
              · rw [hrec] at h
                exact absurd h (by simp)
              · rw [hrec] at h
                simp only [Option.some.injEq, Prod.mk.injEq] at h
                obtain ⟨rfl, rfl, rfl⟩ := h
                intro l hl
                rcases List.mem_append.mp hl with hw | ho
                · simp at hw
                  subst hw
                  exact Or.inl ⟨pyStrip s, rfl⟩
                · exact ih rest (pc + 1) st' pcF' outs' hrec l ho
      · have hpe : processEvent (tss (pc + 1)) (pc + 1) .interrupt =
            .halt .interrupted [kbNotice (tss (pc + 1))] := rfl
        rw [run_cons, hpe] at h
        simp only [Option.some.injEq, Prod.mk.injEq] at h
        obtain ⟨rfl, rfl, rfl⟩ := h
        intro l hl
        simp at hl
        subst hl
        exact Or.inr ⟨pc + 1, kb_timestamped _⟩
      · have hpe : processEvent (tss (pc + 1)) (pc + 1) (.exn msg) =
            .halt .error [errNotice (tss (pc + 1)) msg] := rfl
        rw [run_cons, hpe] at h
        simp only [Option.some.injEq, Prod.mk.injEq] at h
        obtain ⟨rfl, rfl, rfl⟩ := h
        intro l hl
        simp at hl
        subst hl
        exact Or.inr ⟨pc + 1, err_timestamped _ _⟩

/-- C7: every line the program emits (the startup banner and every loop
notice) carries a bracketed timestamp prefix of the `YYYY-MM-DD HH:MM:SS`
shape as the first thing on the line, with the single exception of the
sub-prompt echo lines, which start with the literal marker
`USER_REVIEW_SUB_PROMPT: ` and carry no timestamp. -/
theorem all_lines_timestamped_except_subprompt (clock : Nat → DateTime)
    (fuel : Nat) (events : List ReadEvent) (st : TerminalState) (pcF : Nat)
    (outs : List String)
    (h : main_run clock fuel events = some (st, pcF, outs)) :
    ∀ l ∈ outs,
      (∃ u, l = "USER_REVIEW_SUB_PROMPT: " ++ u) ∨
      ∃ t : DateTime, timestampedLine (formatTimestamp t) l ∧
        timestampShape (formatTimestamp t) := by
  unfold main_run at h
  rcases hrun : run (fun i => formatTimestamp (clock i)) fuel events 0 with _ | ⟨st0, pc0, outs0⟩
  · rw [hrun] at h
    exact absurd h (by simp)
  · rw [hrun] at h
    simp only [Option.some.injEq, Prod.mk.injEq] at h
    obtain ⟨rfl, rfl, rfl⟩ := h
    intro l hl
    rcases List.mem_append.mp hl with hb | ho
    · exact Or.inr ⟨clock 0, banner_timestamped _ l hb, formatTimestamp_shape _⟩
    · rcases run_lines _ fuel events 0 st0 pc0 outs0 hrun l ho with ⟨u, rfl⟩ | ⟨i, hts⟩
      · exact Or.inl ⟨u, rfl⟩
      · exact Or.inr ⟨clock i, hts, formatTimestamp_shape _⟩

/-- C7 witness: a concrete one-line session whose output lines are checked
against the dichotomy. -/
theorem all_lines_timestamped_except_subprompt_witness :
    main_run (fun _ => ⟨2025, 6, 7, 8, 9, 10⟩) 2 [ReadEvent.line "hello\n"] =
      some (.closed, 2, bannerLines "2025-06-07 08:09:10" ++
        [subPromptLine "hello", eofNotice "2025-06-07 08:09:10"]) ∧
    (∀ l ∈ bannerLines "2025-06-07 08:09:10" ++
        [subPromptLine "hello", eofNotice "2025-06-07 08:09:10"],
      (∃ u, l = "USER_REVIEW_SUB_PROMPT: " ++ u) ∨
      ∃ t : DateTime, timestampedLine (formatTimestamp t) l ∧
        timestampShape (formatTimestamp t)) :=
  ⟨by decide,
   all_lines_timestamped_except_subprompt (fun _ => ⟨2025, 6, 7, 8, 9, 10⟩) 2
     [ReadEvent.line "hello\n"] .closed 2 _ (by decide)⟩

/-- A continuing iteration comes exactly from a non-halting event. -/
theorem next_not_haltsOn {ts : String} {pc : Nat} {ev : ReadEvent} {out : List String}
    (h : processEvent ts pc ev = .next out) : haltsOn ev = false := by
  cases ev with
  | line s =>
    by_cases hs : s = ""
    · subst hs
      exact absurd h (by simp [processEvent, processLine])
    · by_cases hstrip : pyStrip s = ""
      · simp [haltsOn, hs, hstrip]
      · by_cases hdet : is_exit_keyword_detected (pyStrip s) = true
        · have hh : processEvent ts pc (.line s) =
              .halt .user_exit [exitNotice ts (pyStrip s) pc] := by
            show processLine _ _ _ = _
            rw [processLine_eq _ _ s hs, if_neg hstrip, if_pos hdet]
          rw [hh] at h
          exact StepOutcome.noConfusion h
        · simp [haltsOn, hs, hstrip, hdet]
  | interrupt => exact absurd h (by simp [processEvent])
  | exn m => exact absurd h (by simp [processEvent])

/-- A halting iteration comes exactly from a halting event. -/
theorem halt_haltsOn {ts : String} {pc : Nat} {ev : ReadEvent} {st : TerminalState}
    {out : List String} (h : processEvent ts pc ev = .halt st out) : haltsOn ev = true := by
  cases ev with
  | line s =>
    by_cases hs : s = ""
    · simp [haltsOn, hs]
    · by_cases hstrip : pyStrip s = ""
      · have hh : processEvent ts pc (.line s) = .next [waitingNotice ts pc] := by
          show processLine _ _ _ = _
          rw [processLine_eq _ _ s hs, if_pos hstrip]
        rw [hh] at h
        exact StepOutcome.noConfusion h
      · by_cases hdet : is_exit_keyword_detected (pyStrip s) = true
        · simp [haltsOn, hs, hstrip, hdet]
        · have hh : processEvent ts pc (.line s) = .next [subPromptLine (pyStrip s)] := by
            show processLine _ _ _ = _
            rw [processLine_eq _ _ s hs, if_neg hstrip, if_neg hdet]
          rw [hh] at h
          exact StepOutcome.noConfusion h
  | interrupt => simp [haltsOn]
  | exn m => simp [haltsOn]

/-- C8: the prompt counter is incremented exactly once per blocking read:
a run returning from counter `pc` ends with counter `pc` plus the number
of reads it performed, a number that is at least one and at most the event
count plus one; so the counter strictly increases during the session and
is never reset or decreased. -/
theorem prompt_count_per_read (tss : Nat → String) (fuel : Nat) :
    ∀ (events : List ReadEvent) (pc : Nat) (st : TerminalState) (pcF : Nat)
      (outs : List String),
      run tss fuel events pc = some (st, pcF, outs) →
      pcF = pc + readsUsed events ∧ 1 ≤ readsUsed events ∧
        readsUsed events ≤ events.length + 1 := by
  induction fuel with
  | zero =>
    intro events pc st pcF outs h
    simp [run] at h
  | succ fuel ih =>
    intro events pc st pcF outs h
    rcases events with _ | ⟨ev, rest⟩
    · rw [run_nil] at h
      simp only [Option.some.injEq, Prod.mk.injEq] at h
      obtain ⟨rfl, rfl, rfl⟩ := h
      simp [readsUsed]
    · rcases hpe : processEvent (tss (pc + 1)) (pc + 1) ev with ⟨out⟩ | ⟨st0, out⟩
      · have hho : haltsOn ev = false := next_not_haltsOn hpe
        rw [run_cons, hpe] at h
        rcases hrec : run tss fuel rest (pc + 1) with _ | ⟨st', pcF', outs'⟩
        · rw [hrec] at h
          exact absurd h (by simp)
        · rw [hrec] at h
          simp only [Option.some.injEq, Prod.mk.injEq] at h
          obtain ⟨rfl, rfl, rfl⟩ := h
          obtain ⟨h1, h2, h3⟩ := ih rest (pc + 1) st' pcF' outs' hrec
          refine ⟨?_, ?_, ?_⟩ <;> simp [readsUsed, hho, List.length_cons] <;> omega
      · have hho : haltsOn ev = true := halt_haltsOn hpe
        rw [run_cons, hpe] at h
        simp only [Option.some.injEq, Prod.mk.injEq] at h
        obtain ⟨rfl, rfl, rfl⟩ := h
        refine ⟨?_, ?_, ?_⟩ <;> simp [readsUsed, hho, List.length_cons]

/-- C8 witness: a two-line session reads three times (two lines, then EOF)
and ends with counter 3 = 0 + 3. -/
theorem prompt_count_per_read_witness :
    3 = 0 + readsUsed [ReadEvent.line "a\n", ReadEvent.line "b\n"] ∧
    1 ≤ readsUsed [ReadEvent.line "a\n", ReadEvent.line "b\n"] ∧
    readsUsed [ReadEvent.line "a\n", ReadEvent.line "b\n"] ≤
      [ReadEvent.line "a\n", ReadEvent.line "b\n"].length + 1 :=
  prompt_count_per_read (fun _ => "T") 3 [ReadEvent.line "a\n", ReadEvent.line "b\n"]
    0 .closed 3 [subPromptLine "a", subPromptLine "b", eofNotice "T"] (by decide)

/-- C9: when an exit keyword is matched — in particular through the
case-insensitive Latin match — the user-exit notice cites the stripped
user input exactly as typed, original casing preserved, not the lowercased
form used for matching. -/
theorem exit_notice_preserves_casing (ts : String) (pc : Nat) (line : String)
    (h : is_exit_keyword_detected (pyStrip line) = true) :
    processLine ts pc line = .halt .user_exit
      ["[" ++ ts ++ "] --- REVIEW GATE: User ended review for THIS STEP with keyword: '" ++
        pyStrip line ++ "' (after " ++ toString pc ++ " prompts) ---"] := by
  have hs : pyStrip line ≠ "" := strip_ne_of_exit h
  rw [processLine_eq ts pc line (ne_empty_of_strip_ne hs), if_neg hs, if_pos h]
  rfl

/-- C9 witness: the mixed-case input "task_COMPLETE" is cited verbatim in
the user-exit notice. -/
theorem exit_notice_preserves_casing_witness :
    processLine "T" 1 "task_COMPLETE\n" = .halt .user_exit
      ["[" ++ "T" ++ "] --- REVIEW GATE: User ended review for THIS STEP with keyword: '" ++
        "task_COMPLETE" ++ "' (after " ++ toString 1 ++ " prompts) ---"] := by
  have h := exit_notice_preserves_casing "T" 1 "task_COMPLETE\n" (by decide)
  rw [(by decide : pyStrip "task_COMPLETE\n" = "task_COMPLETE")] at h
  exact h

/-- C10: the classification of a nonempty raw line — halt with `user_exit`
or continue — and the echoed sub-prompt content depend on the stripped line
content alone: two sessions with different timestamps, prompt counters and
histories classify equal stripped content identically. -/
theorem classification_history_free (ts1 ts2 : String) (pc1 pc2 : Nat)
    (l1 l2 : String) (h : pyStrip l1 = pyStrip l2) (h1 : l1 ≠ "") (h2 : l2 ≠ "") :
    outcomeKind (processLine ts1 pc1 l1) = outcomeKind (processLine ts2 pc2 l2) ∧
    (is_exit_keyword_detected (pyStrip l1) = false → pyStrip l1 ≠ "" →
      processLine ts1 pc1 l1 = .next [subPromptLine (pyStrip l1)] ∧
      processLine ts2 pc2 l2 = .next [subPromptLine (pyStrip l1)]) := by
  constructor
  · rw [processLine_eq ts1 pc1 l1 h1, processLine_eq ts2 pc2 l2 h2, ← h]
    by_cases hstrip : pyStrip l1 = ""
    · rw [if_pos hstrip, if_pos hstrip]
      rfl
    · rw [if_neg hstrip, if_neg hstrip]
      by_cases hdet : is_exit_keyword_detected (pyStrip l1) = true
      · rw [if_pos hdet, if_pos hdet]
        rfl
      · rw [if_neg hdet, if_neg hdet]
  · intro hdet hs
    have hne : ¬ is_exit_keyword_detected (pyStrip l1) = true := by
      rw [hdet]
      exact Bool.false_ne_true
    constructor
    · rw [processLine_eq ts1 pc1 l1 h1, if_neg hs, if_neg hne]
    · rw [processLine_eq ts2 pc2 l2 h2, ← h, if_neg hs, if_neg hne]

/-- C10 witness: the same stripped content "hello", arriving with different
timestamps, counters and surrounding whitespace, is classified identically
and echoed identically. -/
theorem classification_history_free_witness :
    outcomeKind (processLine "A" 1 "hello\n") = outcomeKind (processLine "B" 99 "  hello  ") ∧
    processLine "A" 1 "hello\n" = .next [subPromptLine "hello"] ∧
    processLine "B" 99 "  hello  " = .next [subPromptLine "hello"] := by
  obtain ⟨hk, hsub⟩ := classification_history_free "A" "B" 1 99 "hello\n" "  hello  "
    (by decide) (by decide) (by decide)
  obtain ⟨ha, hb⟩ := hsub (by decide) (by decide)
  rw [(by decide : pyStrip "hello\n" = "hello")] at ha hb
  exact ⟨hk, ha, hb⟩

end ReviewGate
